import Mathlib

/-!
# Restaurant Management System: `static/js/main.js`

A shallow embedding of the page script: the order-total recomputation
(`updateOrderTotal`), the two filter handlers (`tableFilter`, `menuFilter`) and
the `data-confirm` click handler, together with the parts of the JavaScript
runtime they call (`Number` arithmetic, `parseFloat`, `parseInt`,
`Number.prototype.toFixed`).

Numbers.  A JavaScript `Number` is `NaN`, an infinity or a finite value, kept
here as a rational.  The two signed zeros are one value: nothing the script does
(`*`, `+`, `toFixed`) tells them apart.  Every arithmetic result and every
parsed literal passes through a rounding function `rnd : ℚ → JSNumber`.  The
script as the browser runs it is the instance `rnd = roundBinary64` (IEEE 754
double precision, round to nearest, ties to even); `exact` is the instance
without rounding, used for statements made "in exact decimal arithmetic".

Page structure.  An order row is taken with the three children the script reads
and writes (`.item-price`, `.item-quantity`, `.item-subtotal`) and the order
page with its `.order-total` element; `data-*` attributes, which may be absent,
are `Option String`.  On the menu page `item.closest('.col-md-4')` is kept as
it is: a column that several cards may share, or `null`, on which the handler
throws.
-/

namespace RestaurantJS

/-! ## JavaScript numbers -/

/-- A JavaScript `Number`: `NaN`, `±Infinity` or a finite value. -/
inductive JSNumber where
  | nan : JSNumber
  | inf (negative : Bool) : JSNumber
  | fin (q : ℚ) : JSNumber
deriving DecidableEq

/-- The power `2 ^ e` for an integer exponent. -/
def pow2 (e : ℤ) : ℚ :=
  if 0 ≤ e then ((2 ^ e.toNat : ℕ) : ℚ) else 1 / ((2 ^ (-e).toNat : ℕ) : ℚ)

/-- The power `10 ^ e` for an integer exponent. -/
def pow10 (e : ℤ) : ℚ :=
  if 0 ≤ e then ((10 ^ e.toNat : ℕ) : ℚ) else 1 / ((10 ^ (-e).toNat : ℕ) : ℚ)

/-- The number of binary digits of `n`. -/
def bitLength (n : ℕ) : ℕ := (Nat.toDigits 2 n).length

/-- The integer `e` with `2 ^ e ≤ |q| < 2 ^ (e + 1)`, for `q ≠ 0`: the
difference of the bit lengths of numerator and denominator, or one less. -/
def floorLog2 (q : ℚ) : ℤ :=
  let a : ℤ := (bitLength q.num.natAbs : ℤ) - (bitLength q.den : ℤ)
  if pow2 a ≤ |q| then a else a - 1

/-- Rounding to the nearest integer, a tie going to the even neighbour. -/
def roundHalfEven (q : ℚ) : ℤ :=
  let f := ⌊q⌋
  if q - f < 1 / 2 then f
  else if 1 / 2 < q - f then f + 1
  else if f % 2 = 0 then f else f + 1

/-- The `Number` value of a real: the nearest IEEE 754 binary64 value, ties to
even.  The spacing of doubles around `q` is `2 ^ (e - 52)` with `e` the binary
exponent of `q`, never below `-1022` (subnormal range); a result of magnitude
`2 ^ 1024` or more is an infinity. -/
def roundBinary64 (q : ℚ) : JSNumber :=
  if q = 0 then .fin 0
  else
    let e := max (floorLog2 q) (-1022)
    let r := (roundHalfEven (q / pow2 (e - 52)) : ℚ) * pow2 (e - 52)
    if pow2 1024 ≤ |r| then .inf (decide (q < 0)) else .fin r

/-- Arithmetic without rounding. -/
def exact (q : ℚ) : JSNumber := .fin q

/-- The `+` of two Numbers (`Number::add`). -/
def JSNumber.add (rnd : ℚ → JSNumber) : JSNumber → JSNumber → JSNumber
  | .nan, _ => .nan
  | _, .nan => .nan
  | .inf a, .inf b => if a = b then .inf a else .nan
  | .inf a, .fin _ => .inf a
  | .fin _, .inf b => .inf b
  | .fin x, .fin y => rnd (x + y)

/-- The `*` of two Numbers (`Number::multiply`). -/
def JSNumber.mul (rnd : ℚ → JSNumber) : JSNumber → JSNumber → JSNumber
  | .nan, _ => .nan
  | _, .nan => .nan
  | .inf a, .inf b => .inf (a != b)
  | .inf a, .fin y => if y = 0 then .nan else .inf (a != decide (y < 0))
  | .fin x, .inf b => if x = 0 then .nan else .inf (decide (x < 0) != b)
  | .fin x, .fin y => rnd (x * y)

/-! ## Parsing: `parseFloat` and `parseInt` -/

/-- The characters `TrimString` removes: `WhiteSpace` and `LineTerminator`. -/
def isStrWhiteSpaceChar (c : Char) : Bool :=
  let n := c.toNat
  n == 0x09 || n == 0x0A || n == 0x0B || n == 0x0C || n == 0x0D || n == 0x20 ||
  n == 0xA0 || n == 0x1680 || (0x2000 ≤ n && n ≤ 0x200A) || n == 0x2028 ||
  n == 0x2029 || n == 0x202F || n == 0x205F || n == 0x3000 || n == 0xFEFF

/-- The value of a decimal digit. -/
def digitValue (c : Char) : ℕ := c.toNat - 48

/-- The value of a run of decimal digits. -/
def decimalValue (ds : List Char) : ℕ :=
  ds.foldl (fun n c => 10 * n + digitValue c) 0

/-- Whether `c` is a hexadecimal digit. -/
def isHexDigit (c : Char) : Bool :=
  c.isDigit || ('a'.toNat ≤ c.toNat && c.toNat ≤ 'f'.toNat) ||
  ('A'.toNat ≤ c.toNat && c.toNat ≤ 'F'.toNat)

/-- The value of a hexadecimal digit. -/
def hexDigitValue (c : Char) : ℕ :=
  if c.isDigit then c.toNat - 48
  else if 'a'.toNat ≤ c.toNat then c.toNat - 87
  else c.toNat - 55

/-- The value of a run of hexadecimal digits. -/
def hexValue (ds : List Char) : ℕ :=
  ds.foldl (fun n c => 16 * n + hexDigitValue c) 0

/-- Whether `cs` begins with the characters `p`. -/
def beginsWith : List Char → List Char → Bool
  | [], _ => true
  | _ :: _, [] => false
  | p :: ps, c :: cs => p == c && beginsWith ps cs

/-- The exponent written at the head of `cs` (`e`, an optional sign, digits);
`0` when no complete `ExponentPart` stands there. -/
def exponentPart (cs : List Char) : ℤ :=
  match cs with
  | [] => 0
  | c :: rest =>
    if c == 'e' || c == 'E' then
      match rest with
      | '+' :: r => (decimalValue (r.takeWhile Char.isDigit) : ℤ)
      | '-' :: r => -(decimalValue (r.takeWhile Char.isDigit) : ℤ)
      | r => (decimalValue (r.takeWhile Char.isDigit) : ℤ)
    else 0

/-- The mathematical value of the longest prefix of `cs` that is a
`StrUnsignedDecimalLiteral` other than `Infinity`; `none` when no prefix is. -/
def unsignedDecimalValue (cs : List Char) : Option ℚ :=
  let ip := cs.takeWhile Char.isDigit
  match cs.dropWhile Char.isDigit with
  | '.' :: r =>
    let fp := r.takeWhile Char.isDigit
    if ip.isEmpty && fp.isEmpty then none
    else some ((decimalValue (ip ++ fp) : ℚ) *
      pow10 (exponentPart (r.dropWhile Char.isDigit) - (fp.length : ℤ)))
  | r =>
    if ip.isEmpty then none
    else some ((decimalValue ip : ℚ) * pow10 (exponentPart r))

/-- The global `parseFloat` applied to a string: leading white space is
dropped, the longest prefix that is a decimal literal is read, and its value is
rounded once (engines round the whole literal; the specification lets them
drop digits after the twentieth). -/
def parseFloat (rnd : ℚ → JSNumber) (s : String) : JSNumber :=
  let trimmed := s.toList.dropWhile isStrWhiteSpaceChar
  let negative := beginsWith ['-'] trimmed
  let body := if beginsWith ['-'] trimmed || beginsWith ['+'] trimmed
    then trimmed.drop 1 else trimmed
  if beginsWith "Infinity".toList body then .inf negative
  else
    match unsignedDecimalValue body with
    | none => .nan
    | some v => rnd (if negative then -v else v)

/-- The global `parseInt` applied to a string, no radix given: leading white
space and a sign are dropped, `0x` selects radix 16, the leading run of digits
is read and its value rounded once; no digit gives `NaN`. -/
def parseInt (rnd : ℚ → JSNumber) (s : String) : JSNumber :=
  let trimmed := s.toList.dropWhile isStrWhiteSpaceChar
  let negative := beginsWith ['-'] trimmed
  let body := if beginsWith ['-'] trimmed || beginsWith ['+'] trimmed
    then trimmed.drop 1 else trimmed
  let hex := beginsWith ['0', 'x'] body || beginsWith ['0', 'X'] body
  let z := if hex then (body.drop 2).takeWhile isHexDigit
    else body.takeWhile Char.isDigit
  if z.isEmpty then .nan
  else
    let mathInt : ℚ := if hex then (hexValue z : ℚ) else (decimalValue z : ℚ)
    rnd (if negative then -mathInt else mathInt)

/-- The string an argument becomes when a string is expected: an absent
`data-*` attribute reads as `undefined`, which converts to `"undefined"`. -/
def toStringArg : Option String → String
  | some s => s
  | none => "undefined"

/-! ## Formatting: `Number.prototype.toFixed(2)` -/

/-- The integer `n` for which `n / 100 - x` is as close to zero as possible,
the larger one when two are equally close (`x ≥ 0`). -/
def hundredths (x : ℚ) : ℕ := (⌊x * 100 + 1 / 2⌋).toNat

/-- The digits of `n` hundredths in fixed notation: padded to three digits, a
point before the last two. -/
def fixedNotation (n : ℕ) : String :=
  let m := Nat.toDigits 10 n
  let m := List.replicate (3 - m.length) '0' ++ m
  String.mk (m.take (m.length - 2) ++ '.' :: m.drop (m.length - 2))

/-- The candidate with `k` significant digits for the shortest decimal that
reads back as the double of `x`: the digits `s` and the exponent `n`, with
`s * 10 ^ (n - k)` the closer of the two `k`-digit neighbours of `x` that
round to the same double (the even one on a tie). -/
def shortestCandidate (x : ℚ) (k : ℕ) : Option (ℕ × ℕ) :=
  let n0 := (Nat.toDigits 10 (⌊x⌋).toNat).length
  let p := 10 ^ (n0 - k)
  let lo := (⌊x⌋).toNat / p
  let okLo := decide (roundBinary64 ((lo * p : ℕ) : ℚ) = roundBinary64 x)
  let okHi := decide (roundBinary64 (((lo + 1) * p : ℕ) : ℚ) = roundBinary64 x)
  let hi : ℕ × ℕ := if lo + 1 = 10 ^ k then (10 ^ (k - 1), n0 + 1) else (lo + 1, n0)
  let dLo := x - ((lo * p : ℕ) : ℚ)
  let dHi := (((lo + 1) * p : ℕ) : ℚ) - x
  if okLo && okHi then
    if dLo < dHi then some (lo, n0)
    else if dHi < dLo then some hi
    else if lo % 2 = 0 then some (lo, n0) else some hi
  else if okLo then some (lo, n0)
  else if okHi then some hi
  else none

/-- The text `Number::toString` gives a finite `x ≥ 10 ^ 21`: the shortest
digits that read back as `x` (of several, the ones closest to `x`), in
exponential notation.  A value that is no double is printed as its double. -/
def largeToString (x : ℚ) : String :=
  let sn := ((List.range 17).findSome? (fun i => shortestCandidate x (i + 1))).getD
    ((⌊x⌋).toNat / 10 ^ ((Nat.toDigits 10 (⌊x⌋).toNat).length - 17),
      (Nat.toDigits 10 (⌊x⌋).toNat).length)
  let ds := Nat.toDigits 10 sn.1
  let mantissa := if ds.length ≤ 1 then ds else ds.take 1 ++ '.' :: ds.drop 1
  String.mk (mantissa ++ 'e' :: '+' :: Nat.toDigits 10 (sn.2 - 1))

/-- The method call `x.toFixed(2)`. -/
def toFixed2 : JSNumber → String
  | .nan => "NaN"
  | .inf negative => if negative then "-Infinity" else "Infinity"
  | .fin q =>
    let s := if q < 0 then "-" else ""
    let x := |q|
    if (10 : ℚ) ^ 21 ≤ x then s ++ largeToString x
    else s ++ fixedNotation (hundredths x)

/-! ## The order page: `updateOrderTotal` -/

/-- An `.order-item` row, as far as the script reads and writes it. -/
structure OrderItem where
  /-- The `data-price` attribute of the row's `.item-price` element. -/
  price : Option String
  /-- The `value` of the row's `.item-quantity` input. -/
  quantity : String
  /-- The `textContent` of the row's `.item-subtotal` element. -/
  subtotal : String
deriving DecidableEq

/-- The order page: its `.order-item` rows in document order and the
`textContent` of the `.order-total` element. -/
structure OrderPage where
  items : List OrderItem
  orderTotal : String
deriving DecidableEq

/-- The constant `price` of the loop body:
`parseFloat(item.querySelector('.item-price').dataset.price)`. -/
def itemPrice (rnd : ℚ → JSNumber) (item : OrderItem) : JSNumber :=
  parseFloat rnd (toStringArg item.price)

/-- The constant `quantity` of the loop body:
`parseInt(item.querySelector('.item-quantity').value)`. -/
def itemQuantity (rnd : ℚ → JSNumber) (item : OrderItem) : JSNumber :=
  parseInt rnd item.quantity

/-- The constant `subtotal` of the loop body: `price * quantity`. -/
def itemSubtotal (rnd : ℚ → JSNumber) (item : OrderItem) : JSNumber :=
  JSNumber.mul rnd (itemPrice rnd item) (itemQuantity rnd item)

/-- One pass of the `items.forEach` body: the rows already written and the
running `total`, after the row `item`. -/
def orderStep (rnd : ℚ → JSNumber) (st : List OrderItem × JSNumber) (item : OrderItem) :
    List OrderItem × JSNumber :=
  let subtotal := itemSubtotal rnd item
  (st.1 ++ [{ item with subtotal := "$" ++ toFixed2 subtotal }],
    JSNumber.add rnd st.2 subtotal)

/-- The function `updateOrderTotal`: `total` starts at `0`, every row gets its
subtotal text and adds its subtotal to `total`, and the total text is written
last. -/
def updateOrderTotal (rnd : ℚ → JSNumber) (page : OrderPage) : OrderPage :=
  let st := page.items.foldl (orderStep rnd) ([], JSNumber.fin 0)
  { items := st.1, orderTotal := "$" ++ toFixed2 st.2 }

/-- The variable `total` when the loop ends: the row subtotals added up from
`0` in row order. -/
def orderSum (rnd : ℚ → JSNumber) (items : List OrderItem) : JSNumber :=
  (items.map (itemSubtotal rnd)).foldl (JSNumber.add rnd) (JSNumber.fin 0)

/-- An order total the script does not compute, for comparison with the one it
does: the sum of the row subtotals after each was rounded to two decimals, that
is of the numbers the row texts `subtotal.toFixed(2)` show. -/
def sumOfRoundedSubtotals (rnd : ℚ → JSNumber) (items : List OrderItem) : JSNumber :=
  (items.map (fun item => parseFloat rnd (toFixed2 (itemSubtotal rnd item)))).foldl
    (JSNumber.add rnd) (JSNumber.fin 0)

/-- No addition of the values `vs` rounds, in whatever order they are added:
every sum of some of them is a value `rnd` returns as it is. -/
def AddsExactly (rnd : ℚ → JSNumber) (vs : List ℚ) : Prop :=
  ∀ ws ∈ vs.sublists, rnd ws.sum = JSNumber.fin ws.sum

instance (rnd : ℚ → JSNumber) (vs : List ℚ) : Decidable (AddsExactly rnd vs) := by
  unfold AddsExactly
  infer_instance

/-- The value of a finite Number (`0` for the others). -/
def JSNumber.value : JSNumber → ℚ
  | .fin q => q
  | _ => 0

/-! ## The table page and the menu page: the two filter handlers -/

/-- A `.table-card` element: its `data-status` attribute and its
`style.display`. -/
structure TableCard where
  status : Option String
  display : String
deriving DecidableEq

/-- The body of `tables.forEach` in the `tableFilter` handler. -/
def tableCardStep (status : String) (table : TableCard) : TableCard :=
  if status = "all" ∨ table.status = some status then
    { table with display := "block" }
  else
    { table with display := "none" }

/-- The `change` handler of `#tableFilter`; `status` is `this.value`, `tables`
the `.table-card` elements of the page. -/
def tableFilterChange (status : String) (tables : List TableCard) : List TableCard :=
  tables.map (tableCardStep status)

/-- A `.menu-item-card` element: its `data-category` attribute and what
`item.closest('.col-md-4')` returns for it, the number of one of the page's
`.col-md-4` elements or `none` for `null` (no ancestor matches).  Several cards
may have the same column. -/
structure MenuItemCard where
  category : Option String
  column : Option ℕ
deriving DecidableEq

/-- The menu page while the `menuFilter` handler runs: the `style.display` of
every `.col-md-4` element, by its number, and whether a `TypeError` was thrown
(a property of `null` was read), which ends the handler. -/
structure MenuState where
  columnDisplay : ℕ → String
  typeError : Bool

/-- The body of `menuItems.forEach` in the `menuFilter` handler: the test is
evaluated first, then `item.closest('.col-md-4').style.display` is assigned,
which throws when `closest` returned `null`.  After a throw nothing more
runs. -/
def menuItemStep (category : String) (st : MenuState) (item : MenuItemCard) : MenuState :=
  if st.typeError then st
  else if category = "all" ∨ item.category = some category then
    match item.column with
    | none => { st with typeError := true }
    | some c => { st with columnDisplay := Function.update st.columnDisplay c "block" }
  else
    match item.column with
    | none => { st with typeError := true }
    | some c => { st with columnDisplay := Function.update st.columnDisplay c "none" }

/-- The `change` handler of `#menuFilter`; `category` is `this.value`,
`menuItems` the `.menu-item-card` elements of the page in document order,
`columnDisplay` the `style.display` of the columns before the event. -/
def menuFilterChange (category : String) (menuItems : List MenuItemCard)
    (columnDisplay : ℕ → String) : MenuState :=
  menuItems.foldl (menuItemStep category)
    { columnDisplay := columnDisplay, typeError := false }

/-! ## The `data-confirm` click handler -/

/-- What the click handler does to the world around it. -/
inductive Effect where
  /-- The call `confirm(message)`: the dialog is shown with `message`. -/
  | confirmShown (message : String) : Effect
  /-- The call `e.preventDefault()`. -/
  | preventDefault : Effect
deriving DecidableEq

/-- The host function `confirm(message)`: shows the dialog and returns the
answer of the person in front of it, `user message`. -/
def confirm (user : String → Bool) (message : String) (log : List Effect) :
    Bool × List Effect :=
  (user message, log ++ [Effect.confirmShown message])

/-- The method `e.preventDefault()`. -/
def preventDefault (log : List Effect) : List Effect :=
  log ++ [Effect.preventDefault]

/-- The `click` handler of an element selected by `[data-confirm]`:
`if (!confirm(this.dataset.confirm)) { e.preventDefault(); }`.  `dataConfirm` is
the element's `data-confirm` attribute, `log` the effects so far. -/
def confirmClick (user : String → Bool) (dataConfirm : String) (log : List Effect) :
    List Effect :=
  let answered := confirm user dataConfirm log
  if !answered.1 then preventDefault answered.2 else answered.2

/-! ## Numbers: the special values -/

theorem add_nan_left (rnd : ℚ → JSNumber) (x : JSNumber) :
    JSNumber.add rnd .nan x = .nan := by
  cases x <;> rfl

theorem add_nan_right (rnd : ℚ → JSNumber) (x : JSNumber) :
    JSNumber.add rnd x .nan = .nan := by
  cases x <;> rfl

theorem mul_nan_left (rnd : ℚ → JSNumber) (x : JSNumber) :
    JSNumber.mul rnd .nan x = .nan := by
  cases x <;> rfl

theorem mul_nan_right (rnd : ℚ → JSNumber) (x : JSNumber) :
    JSNumber.mul rnd x .nan = .nan := by
  cases x <;> rfl

/-- Once the running total is `NaN` it stays `NaN`. -/
theorem foldl_add_nan (rnd : ℚ → JSNumber) (xs : List JSNumber) :
    xs.foldl (JSNumber.add rnd) .nan = .nan := by
  induction xs with
  | nil => rfl
  | cons x xs ih => simpa [List.foldl, add_nan_left] using ih

/-- A `NaN` among the summands makes the total `NaN`, whatever it started at. -/
theorem foldl_add_of_nan_mem (rnd : ℚ → JSNumber) (xs : List JSNumber)
    (h : JSNumber.nan ∈ xs) (start : JSNumber) :
    xs.foldl (JSNumber.add rnd) start = .nan := by
  induction xs generalizing start with
  | nil => simp at h
  | cons x xs ih =>
    rcases List.mem_cons.mp h with hx | hx
    · subst hx
      simp [List.foldl, add_nan_right, foldl_add_nan]
    · simpa [List.foldl] using ih hx _

/-! ## The runtime on known values -/

/-- The arithmetic at values whose doubles are known: `0.1` is
`3602879701896397 / 2 ^ 55`, `0.1 + 0.2` is `0.30000000000000004` and not `0.3`,
`2 ^ 53 + 1` is not a double, the largest double is `1.7976931348623157e308`,
the smallest `5e-324`. -/
theorem roundBinary64_known_values :
    roundBinary64 (1 / 10) = .fin (3602879701896397 / 36028797018963968) ∧
    JSNumber.add roundBinary64 (parseFloat roundBinary64 "0.1") (parseFloat roundBinary64 "0.2") =
      parseFloat roundBinary64 "0.30000000000000004" ∧
    JSNumber.add roundBinary64 (parseFloat roundBinary64 "0.1") (parseFloat roundBinary64 "0.2") ≠
      parseFloat roundBinary64 "0.3" ∧
    roundBinary64 9007199254740993 = .fin 9007199254740992 ∧
    roundBinary64 9007199254740995 = .fin 9007199254740996 ∧
    parseFloat roundBinary64 "1.7976931348623158e308" =
      parseFloat roundBinary64 "1.7976931348623157e308" ∧
    parseFloat roundBinary64 "1.7976931348623159e308" = .inf false ∧
    JSNumber.mul roundBinary64 (parseFloat roundBinary64 "-1e200")
      (parseFloat roundBinary64 "1e200") = .inf true ∧
    parseFloat roundBinary64 "2.5e-324" = parseFloat roundBinary64 "5e-324" ∧
    parseFloat roundBinary64 "2.4e-324" = .fin 0 := by
  decide!

/-- The parsers on known inputs. -/
theorem parse_known_values :
    parseInt roundBinary64 "42" = .fin 42 ∧
    parseInt roundBinary64 "  12px" = .fin 12 ∧
    parseInt roundBinary64 "-7.9" = .fin (-7) ∧
    parseInt roundBinary64 "0x1F" = .fin 31 ∧
    parseInt roundBinary64 "1e3" = .fin 1 ∧
    parseInt roundBinary64 "" = .nan ∧
    parseInt roundBinary64 "abc" = .nan ∧
    parseInt roundBinary64 "Infinity" = .nan ∧
    parseFloat roundBinary64 "3.5abc" = .fin (7 / 2) ∧
    parseFloat roundBinary64 ".5" = .fin (1 / 2) ∧
    parseFloat roundBinary64 "1e3" = .fin 1000 ∧
    parseFloat roundBinary64 "-Infinity" = .inf true ∧
    parseFloat roundBinary64 "$5" = .nan ∧
    parseFloat roundBinary64 "" = .nan ∧
    parseFloat roundBinary64 (toStringArg none) = .nan := by
  decide!

/-- The formatter `toFixed(2)` on known values: a tie goes up (`0.125`), `1.005`
is a double below `1.005`, a negative value that rounds to zero keeps its sign,
and from `10 ^ 21` on the text is the exponential one. -/
theorem toFixed2_known_values :
    toFixed2 (.fin 0) = "0.00" ∧
    toFixed2 (.fin (1 / 8)) = "0.13" ∧
    toFixed2 (parseFloat roundBinary64 "1.005") = "1.00" ∧
    toFixed2 (parseFloat roundBinary64 "1234.5678") = "1234.57" ∧
    toFixed2 (.fin (-1 / 1000)) = "-0.00" ∧
    toFixed2 (.fin (-5 / 2)) = "-2.50" ∧
    toFixed2 (parseFloat roundBinary64 "999999999999999999999") = "1e+21" ∧
    toFixed2 (parseFloat roundBinary64 "1e23") = "1e+23" ∧
    toFixed2 (parseFloat roundBinary64 "-1.5e300") = "-1.5e+300" ∧
    toFixed2 (parseFloat roundBinary64 "1.25e25") = "1.25e+25" ∧
    toFixed2 .nan = "NaN" ∧
    toFixed2 (.inf true) = "-Infinity" := by
  decide!

/-! ## `updateOrderTotal`: the loop as a map and a sum -/

/-- The loop, started from any rows written so far and any running total. -/
theorem foldl_orderStep (rnd : ℚ → JSNumber) (items done : List OrderItem)
    (total : JSNumber) :
    items.foldl (orderStep rnd) (done, total) =
      (done ++ items.map (fun item =>
          { item with subtotal := "$" ++ toFixed2 (itemSubtotal rnd item) }),
        (items.map (itemSubtotal rnd)).foldl (JSNumber.add rnd) total) := by
  induction items generalizing done total with
  | nil => simp
  | cons item items ih =>
    simp only [List.foldl_cons, List.map_cons, orderStep, ih]
    simp

theorem updateOrderTotal_items (rnd : ℚ → JSNumber) (page : OrderPage) :
    (updateOrderTotal rnd page).items = page.items.map (fun item =>
      { item with subtotal := "$" ++ toFixed2 (itemSubtotal rnd item) }) := by
  simp [updateOrderTotal, foldl_orderStep]

theorem updateOrderTotal_orderTotal (rnd : ℚ → JSNumber) (page : OrderPage) :
    (updateOrderTotal rnd page).orderTotal = "$" ++ toFixed2
      ((page.items.map (itemSubtotal rnd)).foldl (JSNumber.add rnd) (.fin 0)) := by
  simp [updateOrderTotal, foldl_orderStep]

/-- In exact arithmetic the running total of finite summands is their sum. -/
theorem foldl_add_exact (vs : List ℚ) (start : ℚ) :
    (vs.map JSNumber.fin).foldl (JSNumber.add exact) (.fin start) =
      .fin (start + vs.sum) := by
  induction vs generalizing start with
  | nil => simp
  | cons v vs ih =>
    simp only [List.map_cons, List.foldl_cons, JSNumber.add, exact, List.sum_cons]
    rw [ih]
    congr 1
    ring

/-! ## The order total -/

/-- Claim C1. `updateOrderTotal` writes on every row the text of `price * quantity`
for that row's parsed price and quantity, keeps the rows otherwise as they are,
and writes as order total the text of the sum of these products, added up from
`0` in row order.  Nothing of what was displayed before enters the result: two
pages whose rows carry the same prices and quantities come out the same.  In
exact arithmetic the total is the sum `Σ pᵢ * qᵢ` of the parsed values.  In the
browser's arithmetic, prices `10.00` and `5.50` with quantities `2` and `3` give
`$20.00`, `$16.50` and `$36.50`, whatever was displayed before. -/
theorem updateOrderTotal_subtotals_and_total (rnd : ℚ → JSNumber) (page : OrderPage) :
    (updateOrderTotal rnd page).items = page.items.map (fun item =>
        { item with subtotal := ("$" ++ toFixed2
            (JSNumber.mul rnd (itemPrice rnd item) (itemQuantity rnd item))) }) ∧
    (updateOrderTotal rnd page).orderTotal = "$" ++ toFixed2
        ((page.items.map (fun item =>
            JSNumber.mul rnd (itemPrice rnd item) (itemQuantity rnd item))).foldl
          (JSNumber.add rnd) (JSNumber.fin 0)) ∧
    (∀ other : OrderPage,
        other.items.map (fun item => (item.price, item.quantity)) =
          page.items.map (fun item => (item.price, item.quantity)) →
        updateOrderTotal rnd other = updateOrderTotal rnd page) ∧
    (∀ pq : List (ℚ × ℚ),
        page.items.map (fun item => (itemPrice exact item, itemQuantity exact item)) =
          pq.map (fun x => (JSNumber.fin x.1, JSNumber.fin x.2)) →
        (updateOrderTotal exact page).orderTotal =
          "$" ++ toFixed2 (JSNumber.fin (pq.map (fun x => x.1 * x.2)).sum)) ∧
    updateOrderTotal roundBinary64
        { items := [{ price := some "10.00", quantity := "2", subtotal := "$0.00" },
                    { price := some "5.50", quantity := "3", subtotal := "$5.50" }],
          orderTotal := "$5.50" } =
      { items := [{ price := some "10.00", quantity := "2", subtotal := "$20.00" },
                  { price := some "5.50", quantity := "3", subtotal := "$16.50" }],
        orderTotal := "$36.50" } := by
  refine ⟨updateOrderTotal_items rnd page, updateOrderTotal_orderTotal rnd page, ?_, ?_,
    by decide!⟩
  · intro other h
    have hitems : ∀ l₁ l₂ : List OrderItem,
        l₁.map (fun item => (item.price, item.quantity)) =
          l₂.map (fun item => (item.price, item.quantity)) →
        (l₁.map (fun item =>
            { item with subtotal := "$" ++ toFixed2 (itemSubtotal rnd item) }) =
          l₂.map (fun item =>
            { item with subtotal := "$" ++ toFixed2 (itemSubtotal rnd item) })) ∧
        l₁.map (itemSubtotal rnd) = l₂.map (itemSubtotal rnd) := by
      intro l₁
      induction l₁ with
      | nil =>
        intro l₂ h
        cases l₂ with
        | nil => simp
        | cons b l₂ => simp at h
      | cons a l₁ ih =>
        intro l₂ h
        cases l₂ with
        | nil => simp at h
        | cons b l₂ =>
          simp only [List.map_cons, List.cons.injEq, Prod.mk.injEq] at h
          obtain ⟨⟨hp, hq⟩, ht⟩ := h
          obtain ⟨h1, h2⟩ := ih l₂ ht
          have hs : itemSubtotal rnd a = itemSubtotal rnd b := by
            simp [itemSubtotal, itemPrice, itemQuantity, hp, hq]
          simp [h1, h2, hs, hp, hq]
    obtain ⟨h1, h2⟩ := hitems other.items page.items h
    have e1 := updateOrderTotal_items rnd other
    have e2 := updateOrderTotal_items rnd page
    have e3 := updateOrderTotal_orderTotal rnd other
    have e4 := updateOrderTotal_orderTotal rnd page
    rw [h1] at e1
    rw [h2] at e3
    cases hx : updateOrderTotal rnd other with
    | mk i1 t1 =>
      cases hy : updateOrderTotal rnd page with
      | mk i2 t2 =>
        rw [hx] at e1 e3
        rw [hy] at e2 e4
        simp only at e1 e2 e3 e4
        rw [e1, e2, e3, e4]
  · intro pq h
    rw [updateOrderTotal_orderTotal]
    have hsub : page.items.map (itemSubtotal exact) =
        (pq.map (fun x => x.1 * x.2)).map JSNumber.fin := by
      have := congrArg (List.map (fun x : JSNumber × JSNumber => JSNumber.mul exact x.1 x.2)) h
      simpa [List.map_map, Function.comp_def, itemSubtotal, JSNumber.mul, exact] using this
    rw [hsub, foldl_add_exact, zero_add]

/-- Claim C9. On a page without rows `updateOrderTotal` writes no subtotal, the
variable `total` ends at `0`, and the order total reads `$0.00`, whatever it
read before. -/
theorem updateOrderTotal_empty (rnd : ℚ → JSNumber) (previous : String) :
    updateOrderTotal rnd { items := [], orderTotal := previous } =
      { items := [], orderTotal := "$0.00" } ∧
    orderSum rnd [] = JSNumber.fin 0 := by
  have h : "$" ++ toFixed2 (.fin 0) = "$0.00" := by decide!
  exact ⟨by simp [updateOrderTotal, h], rfl⟩

/-- A row whose subtotal is `NaN` shows `$NaN`, and so does the order total. -/
theorem updateOrderTotal_of_subtotal_nan (rnd : ℚ → JSNumber) (page : OrderPage) (i : ℕ)
    (item : OrderItem) (hi : page.items[i]? = some item)
    (hs : itemSubtotal rnd item = .nan) :
    (updateOrderTotal rnd page).items[i]? = some { item with subtotal := "$NaN" } ∧
    (updateOrderTotal rnd page).orderTotal = "$NaN" := by
  have hshow : "$" ++ toFixed2 .nan = "$NaN" := by decide
  constructor
  · rw [updateOrderTotal_items, List.getElem?_map, hi]
    simp [hs, hshow]
  · rw [updateOrderTotal_orderTotal]
    have hmem : JSNumber.nan ∈ page.items.map (itemSubtotal rnd) := by
      rw [← hs]
      exact List.mem_map_of_mem _ (List.getElem?_mem hi)
    rw [foldl_add_of_nan_mem rnd _ hmem, hshow]

/-- Claim C3, as the script behaves. When `parseInt` finds no integer at the start
of a row's quantity field (it returns `NaN`: text that is not a number, an empty
field), the script substitutes nothing: the row's subtotal is `NaN`, shown as
`$NaN`, and the order total is `$NaN` whatever the other rows hold. -/
theorem updateOrderTotal_quantity_nan (rnd : ℚ → JSNumber) (page : OrderPage) (i : ℕ)
    (item : OrderItem) (hi : page.items[i]? = some item)
    (hq : itemQuantity rnd item = .nan) :
    itemSubtotal rnd item = .nan ∧
    (updateOrderTotal rnd page).items[i]? = some { item with subtotal := "$NaN" } ∧
    (updateOrderTotal rnd page).orderTotal = "$NaN" := by
  have hs : itemSubtotal rnd item = .nan := by
    simp [itemSubtotal, hq, mul_nan_right]
  exact ⟨hs, updateOrderTotal_of_subtotal_nan rnd page i item hi hs⟩

/-- The rows `(10.00, "abc")` and `(5.50, 3)`: the first has no parsable
quantity. -/
theorem updateOrderTotal_quantity_nan_witness :
    ([{ price := some "10.00", quantity := "abc", subtotal := "" },
      { price := some "5.50", quantity := "3", subtotal := "" }] : List OrderItem)[0]? =
      some { price := some "10.00", quantity := "abc", subtotal := "" } ∧
    itemQuantity roundBinary64
      { price := some "10.00", quantity := "abc", subtotal := "" } = .nan ∧
    itemSubtotal roundBinary64
      { price := some "10.00", quantity := "abc", subtotal := "" } = .nan ∧
    (updateOrderTotal roundBinary64
      { items := [{ price := some "10.00", quantity := "abc", subtotal := "" },
                  { price := some "5.50", quantity := "3", subtotal := "" }],
        orderTotal := "" }).items[0]? =
      some { price := some "10.00", quantity := "abc", subtotal := "$NaN" } ∧
    (updateOrderTotal roundBinary64
      { items := [{ price := some "10.00", quantity := "abc", subtotal := "" },
                  { price := some "5.50", quantity := "3", subtotal := "" }],
        orderTotal := "" }).orderTotal = "$NaN" :=
  ⟨rfl, rfl, updateOrderTotal_quantity_nan roundBinary64
    { items := [{ price := some "10.00", quantity := "abc", subtotal := "" },
                { price := some "5.50", quantity := "3", subtotal := "" }],
      orderTotal := "" } 0
    { price := some "10.00", quantity := "abc", subtotal := "" } rfl rfl⟩

/-- Claim C3 fails as stated. With the quantity fields `abc`, empty and `-2` in
front of a row `(5.50, 3)`, the first row's subtotal is not `$0.00` and the
order total is not the `$16.50` of the remaining row: the script shows `$NaN`
and `$NaN` for the first two, `$-20.00` and `$-3.50` for the negative
quantity. -/
theorem updateOrderTotal_quantity_counterexample :
    updateOrderTotal roundBinary64
        { items := [{ price := some "10.00", quantity := "abc", subtotal := "" },
                    { price := some "5.50", quantity := "3", subtotal := "" }],
          orderTotal := "" } =
      { items := [{ price := some "10.00", quantity := "abc", subtotal := "$NaN" },
                  { price := some "5.50", quantity := "3", subtotal := "$16.50" }],
        orderTotal := "$NaN" } ∧
    updateOrderTotal roundBinary64
        { items := [{ price := some "10.00", quantity := "", subtotal := "" },
                    { price := some "5.50", quantity := "3", subtotal := "" }],
          orderTotal := "" } =
      { items := [{ price := some "10.00", quantity := "", subtotal := "$NaN" },
                  { price := some "5.50", quantity := "3", subtotal := "$16.50" }],
        orderTotal := "$NaN" } ∧
    updateOrderTotal roundBinary64
        { items := [{ price := some "10.00", quantity := "-2", subtotal := "" },
                    { price := some "5.50", quantity := "3", subtotal := "" }],
          orderTotal := "" } =
      { items := [{ price := some "10.00", quantity := "-2", subtotal := "$-20.00" },
                  { price := some "5.50", quantity := "3", subtotal := "$16.50" }],
        orderTotal := "$-3.50" } := by
  decide!

/-- Claim C4, as the script behaves. When a row's price does not parse
(`parseFloat` returns `NaN`, as it does for an absent `data-price` attribute,
read as `undefined`), the script goes on with `NaN`, not with `0`: the row's
subtotal is `NaN`, shown as `$NaN`, and the order total is `$NaN` whatever the
other rows hold.  Nothing is raised: the function returns a page. -/
theorem updateOrderTotal_price_nan (rnd : ℚ → JSNumber) (page : OrderPage) (i : ℕ)
    (item : OrderItem) (hi : page.items[i]? = some item)
    (hp : item.price = none ∨ itemPrice rnd item = .nan) :
    itemPrice rnd item = .nan ∧
    itemSubtotal rnd item = .nan ∧
    (updateOrderTotal rnd page).items[i]? = some { item with subtotal := "$NaN" } ∧
    (updateOrderTotal rnd page).orderTotal = "$NaN" := by
  have hp' : itemPrice rnd item = .nan := by
    rcases hp with h | h
    · simp only [itemPrice, h]
      rfl
    · exact h
  have hs : itemSubtotal rnd item = .nan := by
    simp [itemSubtotal, hp', mul_nan_left]
  exact ⟨hp', hs, updateOrderTotal_of_subtotal_nan rnd page i item hi hs⟩

/-- The rows `(no data-price, 2)` and `(5.50, 3)`. -/
theorem updateOrderTotal_price_nan_witness :
    ([{ price := none, quantity := "2", subtotal := "" },
      { price := some "5.50", quantity := "3", subtotal := "" }] : List OrderItem)[0]? =
      some { price := none, quantity := "2", subtotal := "" } ∧
    itemPrice roundBinary64 { price := none, quantity := "2", subtotal := "" } = .nan ∧
    itemSubtotal roundBinary64 { price := none, quantity := "2", subtotal := "" } = .nan ∧
    (updateOrderTotal roundBinary64
      { items := [{ price := none, quantity := "2", subtotal := "" },
                  { price := some "5.50", quantity := "3", subtotal := "" }],
        orderTotal := "" }).items[0]? =
      some { price := none, quantity := "2", subtotal := "$NaN" } ∧
    (updateOrderTotal roundBinary64
      { items := [{ price := none, quantity := "2", subtotal := "" },
                  { price := some "5.50", quantity := "3", subtotal := "" }],
        orderTotal := "" }).orderTotal = "$NaN" :=
  ⟨rfl, updateOrderTotal_price_nan roundBinary64
    { items := [{ price := none, quantity := "2", subtotal := "" },
                { price := some "5.50", quantity := "3", subtotal := "" }],
      orderTotal := "" } 0
    { price := none, quantity := "2", subtotal := "" } rfl (Or.inl rfl)⟩

/-- Claim C4 fails as stated. With a row without `data-price`, or with the price
text `abc`, in front of a row `(5.50, 3)`, the first row's subtotal is not
`$0.00` and the order total is not `$16.50`: both show `$NaN`. -/
theorem updateOrderTotal_price_counterexample :
    updateOrderTotal roundBinary64
        { items := [{ price := none, quantity := "2", subtotal := "" },
                    { price := some "5.50", quantity := "3", subtotal := "" }],
          orderTotal := "" } =
      { items := [{ price := none, quantity := "2", subtotal := "$NaN" },
                  { price := some "5.50", quantity := "3", subtotal := "$16.50" }],
        orderTotal := "$NaN" } ∧
    updateOrderTotal roundBinary64
        { items := [{ price := some "abc", quantity := "2", subtotal := "" },
                    { price := some "5.50", quantity := "3", subtotal := "" }],
          orderTotal := "" } =
      { items := [{ price := some "abc", quantity := "2", subtotal := "$NaN" },
                  { price := some "5.50", quantity := "3", subtotal := "$16.50" }],
        orderTotal := "$NaN" } := by
  decide!

/-! ## The order of the rows -/

/-- When none of the additions rounds, the running total is the sum. -/
theorem foldl_add_of_exact (rnd : ℚ → JSNumber) (us : List ℚ) (a : ℚ)
    (h : ∀ k, rnd (a + (us.take k).sum) = .fin (a + (us.take k).sum)) :
    (us.map JSNumber.fin).foldl (JSNumber.add rnd) (.fin a) = .fin (a + us.sum) := by
  induction us generalizing a with
  | nil => simp
  | cons u us ih =>
    have h1 : rnd (a + u) = .fin (a + u) := by simpa using h 1
    have ht : ∀ k, rnd (a + u + (us.take k).sum) = .fin (a + u + (us.take k).sum) := by
      intro k
      have := h (k + 1)
      simpa [List.take_succ_cons, add_assoc] using this
    simp only [List.map_cons, List.foldl_cons, JSNumber.add, h1, List.sum_cons]
    rw [ih (a + u) ht, add_assoc]

/-- The sum of values that add exactly, taken in any order. -/
theorem foldl_add_of_addsExactly (rnd : ℚ → JSNumber) (vs us : List ℚ)
    (hperm : us.Perm vs) (hexact : AddsExactly rnd vs) :
    (us.map JSNumber.fin).foldl (JSNumber.add rnd) (.fin 0) = .fin vs.sum := by
  have h : ∀ k, rnd (0 + (us.take k).sum) = .fin (0 + (us.take k).sum) := by
    intro k
    have hsub : (us.take k).Subperm vs :=
      (List.take_sublist k us).subperm.trans hperm.subperm
    obtain ⟨ws, hws, hsl⟩ := hsub
    have := hexact ws (List.mem_sublists.mpr hsl)
    rw [hws.sum_eq] at this
    simpa using this
  rw [foldl_add_of_exact rnd us 0 h, zero_add, hperm.sum_eq]

/-- A list of Numbers that is a permutation of finite ones is the list of its
values. -/
theorem map_fin_value_of_perm (ws : List JSNumber) (vs : List ℚ)
    (h : ws.Perm (vs.map JSNumber.fin)) :
    ws = (ws.map JSNumber.value).map JSNumber.fin ∧ (ws.map JSNumber.value).Perm vs := by
  constructor
  · have hall : ∀ x ∈ ws, JSNumber.fin (JSNumber.value x) = x := by
      intro x hx
      obtain ⟨v, _, rfl⟩ := List.mem_map.mp (h.subset hx)
      rfl
    rw [List.map_map]
    conv_lhs => rw [← List.map_id ws]
    exact List.map_congr_left (fun x hx => (hall x hx).symm)
  · have := h.map JSNumber.value
    simpa [List.map_map, Function.comp_def, JSNumber.value] using this

/-- The totals of two pages with the same rows in another order, when the row
subtotals are finite and add exactly. -/
theorem orderSum_of_perm (rnd : ℚ → JSNumber) (items other : List OrderItem)
    (vs : List ℚ) (hperm : other.Perm items)
    (hfin : items.map (itemSubtotal rnd) = vs.map JSNumber.fin)
    (hexact : AddsExactly rnd vs) :
    orderSum rnd other = .fin vs.sum := by
  have hp : (other.map (itemSubtotal rnd)).Perm (vs.map JSNumber.fin) := by
    rw [← hfin]
    exact hperm.map _
  obtain ⟨h1, h2⟩ := map_fin_value_of_perm _ vs hp
  unfold orderSum
  rw [h1]
  exact foldl_add_of_addsExactly rnd vs _ h2 hexact

/-- Claim C6, as the script behaves. When the row subtotals are finite and no
addition of them rounds (every sum of some of them is a value of the
arithmetic), the order total is the same for every order of the rows: it shows
their sum. -/
theorem updateOrderTotal_perm (rnd : ℚ → JSNumber) (page other : OrderPage) (vs : List ℚ)
    (hperm : other.items.Perm page.items)
    (hfin : page.items.map (itemSubtotal rnd) = vs.map JSNumber.fin)
    (hexact : AddsExactly rnd vs) :
    (updateOrderTotal rnd other).orderTotal = (updateOrderTotal rnd page).orderTotal ∧
    (updateOrderTotal rnd page).orderTotal = "$" ++ toFixed2 (.fin vs.sum) := by
  have e1 := orderSum_of_perm rnd page.items other.items vs hperm hfin hexact
  have e2 := orderSum_of_perm rnd page.items page.items vs (List.Perm.refl _) hfin hexact
  unfold orderSum at e1 e2
  rw [updateOrderTotal_orderTotal, updateOrderTotal_orderTotal, e1, e2]
  exact ⟨rfl, rfl⟩

/-- The rows `(10.00, 2)`, `(5.50, 3)`, `(0.25, 1)` and the same rows with the
last one first: the subtotals `20`, `16.5`, `0.25` add exactly in binary64. -/
theorem updateOrderTotal_perm_witness :
    ([{ price := some "0.25", quantity := "1", subtotal := "" },
      { price := some "10.00", quantity := "2", subtotal := "" },
      { price := some "5.50", quantity := "3", subtotal := "" }] : List OrderItem).Perm
      [{ price := some "10.00", quantity := "2", subtotal := "" },
       { price := some "5.50", quantity := "3", subtotal := "" },
       { price := some "0.25", quantity := "1", subtotal := "" }] ∧
    AddsExactly roundBinary64 [20, 33 / 2, 1 / 4] ∧
    (updateOrderTotal roundBinary64
        { items := [{ price := some "0.25", quantity := "1", subtotal := "" },
                    { price := some "10.00", quantity := "2", subtotal := "" },
                    { price := some "5.50", quantity := "3", subtotal := "" }],
          orderTotal := "" }).orderTotal =
      (updateOrderTotal roundBinary64
        { items := [{ price := some "10.00", quantity := "2", subtotal := "" },
                    { price := some "5.50", quantity := "3", subtotal := "" },
                    { price := some "0.25", quantity := "1", subtotal := "" }],
          orderTotal := "" }).orderTotal ∧
    (updateOrderTotal roundBinary64
        { items := [{ price := some "10.00", quantity := "2", subtotal := "" },
                    { price := some "5.50", quantity := "3", subtotal := "" },
                    { price := some "0.25", quantity := "1", subtotal := "" }],
          orderTotal := "" }).orderTotal = "$" ++ toFixed2 (.fin ([20, 33 / 2, 1 / 4] : List ℚ).sum) :=
  ⟨by decide!, by decide!,
    updateOrderTotal_perm roundBinary64
      { items := [{ price := some "10.00", quantity := "2", subtotal := "" },
                  { price := some "5.50", quantity := "3", subtotal := "" },
                  { price := some "0.25", quantity := "1", subtotal := "" }],
        orderTotal := "" }
      { items := [{ price := some "0.25", quantity := "1", subtotal := "" },
                  { price := some "10.00", quantity := "2", subtotal := "" },
                  { price := some "5.50", quantity := "3", subtotal := "" }],
        orderTotal := "" }
      [20, 33 / 2, 1 / 4] (by decide!) (by decide!) (by decide!)⟩

/-- In exact arithmetic the order total is the same for every order of the
rows, when the row subtotals are finite. -/
theorem updateOrderTotal_perm_exact (page other : OrderPage) (vs : List ℚ)
    (hperm : other.items.Perm page.items)
    (hfin : page.items.map (itemSubtotal exact) = vs.map JSNumber.fin) :
    (updateOrderTotal exact other).orderTotal = (updateOrderTotal exact page).orderTotal := by
  have hexact : AddsExactly exact vs := fun ws _ => rfl
  have e1 := orderSum_of_perm exact page.items other.items vs hperm hfin hexact
  have e2 := orderSum_of_perm exact page.items page.items vs (List.Perm.refl _) hfin hexact
  unfold orderSum at e1 e2
  rw [updateOrderTotal_orderTotal, updateOrderTotal_orderTotal, e1, e2]

/-- Claim C6 fails as stated. The rows `(0.2, 1)`, `(0.7, 1)`, `(0.005, 1)` show
the order total `$0.90`; the same rows with the last one first show `$0.91`. -/
theorem updateOrderTotal_perm_counterexample :
    ([{ price := some "0.005", quantity := "1", subtotal := "" },
      { price := some "0.2", quantity := "1", subtotal := "" },
      { price := some "0.7", quantity := "1", subtotal := "" }] : List OrderItem).Perm
      [{ price := some "0.2", quantity := "1", subtotal := "" },
       { price := some "0.7", quantity := "1", subtotal := "" },
       { price := some "0.005", quantity := "1", subtotal := "" }] ∧
    (updateOrderTotal roundBinary64
        { items := [{ price := some "0.2", quantity := "1", subtotal := "" },
                    { price := some "0.7", quantity := "1", subtotal := "" },
                    { price := some "0.005", quantity := "1", subtotal := "" }],
          orderTotal := "" }).orderTotal = "$0.90" ∧
    (updateOrderTotal roundBinary64
        { items := [{ price := some "0.005", quantity := "1", subtotal := "" },
                    { price := some "0.2", quantity := "1", subtotal := "" },
                    { price := some "0.7", quantity := "1", subtotal := "" }],
          orderTotal := "" }).orderTotal = "$0.91" := by
  decide!

/-! ## Rounding to two decimals -/

/-- Claim C5. The order total shown is the text of the variable `total`, the sum
of the row subtotals as `price * quantity` produced them: the only rounding to
two decimals is the one `toFixed(2)` does on the finished sum.  It is not the
sum of the subtotals as the rows show them: for two rows `(0.125, 1)` each row
shows `$0.13`, adding those would show `$0.26`, and the script shows `$0.25`. -/
theorem orderTotal_rounded_once (rnd : ℚ → JSNumber) (page : OrderPage) :
    (updateOrderTotal rnd page).orderTotal = "$" ++ toFixed2 (orderSum rnd page.items) ∧
    orderSum rnd page.items =
      (page.items.map (fun item =>
          JSNumber.mul rnd (itemPrice rnd item) (itemQuantity rnd item))).foldl
        (JSNumber.add rnd) (JSNumber.fin 0) ∧
    (updateOrderTotal roundBinary64
        { items := [{ price := some "0.125", quantity := "1", subtotal := "" },
                    { price := some "0.125", quantity := "1", subtotal := "" }],
          orderTotal := "" } =
      { items := [{ price := some "0.125", quantity := "1", subtotal := "$0.13" },
                  { price := some "0.125", quantity := "1", subtotal := "$0.13" }],
        orderTotal := "$0.25" }) ∧
    "$" ++ toFixed2 (sumOfRoundedSubtotals roundBinary64
        [{ price := some "0.125", quantity := "1", subtotal := "" },
         { price := some "0.125", quantity := "1", subtotal := "" }]) = "$0.26" := by
  refine ⟨updateOrderTotal_orderTotal rnd page, rfl, by decide!, by decide!⟩

/-- The hundredths of a whole number of hundredths. -/
theorem hundredths_of_cents (m : ℕ) : hundredths ((m : ℚ) / 100) = m := by
  unfold hundredths
  have h : ((m : ℚ) / 100 * 100 + 1 / 2) = ((m : ℤ) : ℚ) + 1 / 2 := by
    push_cast
    ring
  rw [h]
  have hf : ⌊((m : ℤ) : ℚ) + 1 / 2⌋ = (m : ℤ) := by
    rw [Int.floor_eq_iff]
    constructor <;> norm_num
  rw [hf]
  simp

/-- The text of a value from `0` up to `10 ^ 21`: its hundredths in fixed
notation. -/
theorem toFixed2_of_nonneg (q : ℚ) (h0 : 0 ≤ q) (h1 : q < 10 ^ 21) :
    toFixed2 (.fin q) = fixedNotation (hundredths q) := by
  simp [toFixed2, not_lt.mpr h0, abs_of_nonneg h0, not_le.mpr h1]

/-- The sum of whole numbers of hundredths. -/
theorem sum_cents (ms : List ℕ) :
    (ms.map (fun m : ℕ => (m : ℚ) / 100)).sum = ((ms.sum : ℕ) : ℚ) / 100 := by
  induction ms with
  | nil => simp
  | cons m ms ih =>
    simp only [List.map_cons, List.sum_cons, ih]
    push_cast
    ring

/-- In exact arithmetic, rows whose prices are whole numbers of hundredths and
whose quantities are natural numbers have subtotals and a total that are whole
numbers of hundredths: the products `k * n` and their sum. -/
theorem exact_subtotals_of_cents (page : OrderPage) (pq : List (ℕ × ℕ))
    (h : page.items.map (fun item => (itemPrice exact item, itemQuantity exact item)) =
      pq.map (fun x => (JSNumber.fin ((x.1 : ℚ) / 100), JSNumber.fin (x.2 : ℚ)))) :
    page.items.map (itemSubtotal exact) =
      pq.map (fun x => JSNumber.fin (((x.1 * x.2 : ℕ) : ℚ) / 100)) ∧
    orderSum exact page.items =
      JSNumber.fin ((((pq.map (fun x => x.1 * x.2)).sum : ℕ) : ℚ) / 100) := by
  have hsub : page.items.map (itemSubtotal exact) =
      pq.map (fun x => JSNumber.fin (((x.1 * x.2 : ℕ) : ℚ) / 100)) := by
    have hmul := congrArg
      (List.map (fun x : JSNumber × JSNumber => JSNumber.mul exact x.1 x.2)) h
    simp only [List.map_map, Function.comp_def] at hmul
    have hdef : page.items.map (itemSubtotal exact) = page.items.map (fun item =>
        JSNumber.mul exact (itemPrice exact item) (itemQuantity exact item)) := rfl
    rw [hdef, hmul]
    apply List.map_congr_left
    intro x _
    simp only [JSNumber.mul, exact]
    congr 1
    push_cast
    ring
  refine ⟨hsub, ?_⟩
  unfold orderSum
  have hshape : pq.map (fun x => JSNumber.fin (((x.1 * x.2 : ℕ) : ℚ) / 100)) =
      ((pq.map (fun x : ℕ × ℕ => x.1 * x.2)).map (fun m : ℕ => (m : ℚ) / 100)).map
        JSNumber.fin := by
    simp [List.map_map, Function.comp_def]
  rw [hsub, hshape, foldl_add_exact, zero_add, sum_cents]

/-- Claim C10, as the script behaves. In exact arithmetic, when every price is a
whole number of hundredths (`k / 100`), every quantity a natural number `n`,
and the total is below `10 ^ 21` (where `toFixed(2)` prints in fixed notation),
the rounding to two decimals changes nothing, every row shows `$` and its
`k * n` hundredths, and the order total shows `$` and the sum of the hundredths
the rows show. -/
theorem exact_total_is_sum_of_shown_subtotals (page : OrderPage) (pq : List (ℕ × ℕ))
    (h : page.items.map (fun item => (itemPrice exact item, itemQuantity exact item)) =
      pq.map (fun x => (JSNumber.fin ((x.1 : ℚ) / 100), JSNumber.fin (x.2 : ℚ))))
    (hlt : (((pq.map (fun x => x.1 * x.2)).sum : ℕ) : ℚ) / 100 < 10 ^ 21) :
    page.items.map (itemSubtotal exact) =
      pq.map (fun x => JSNumber.fin (((x.1 * x.2 : ℕ) : ℚ) / 100)) ∧
    orderSum exact page.items =
      JSNumber.fin ((((pq.map (fun x => x.1 * x.2)).sum : ℕ) : ℚ) / 100) ∧
    (∀ x ∈ pq, hundredths (((x.1 * x.2 : ℕ) : ℚ) / 100) = x.1 * x.2) ∧
    hundredths ((((pq.map (fun x => x.1 * x.2)).sum : ℕ) : ℚ) / 100) =
      (pq.map (fun x => hundredths (((x.1 * x.2 : ℕ) : ℚ) / 100))).sum ∧
    (updateOrderTotal exact page).items.map (fun item => item.subtotal) =
      pq.map (fun x => "$" ++ fixedNotation (hundredths (((x.1 * x.2 : ℕ) : ℚ) / 100))) ∧
    (updateOrderTotal exact page).orderTotal = "$" ++ fixedNotation
      (pq.map (fun x => hundredths (((x.1 * x.2 : ℕ) : ℚ) / 100))).sum := by
  obtain ⟨hsub, hsum⟩ := exact_subtotals_of_cents page pq h
  have hh : (pq.map (fun x => hundredths (((x.1 * x.2 : ℕ) : ℚ) / 100))) =
      pq.map (fun x => x.1 * x.2) := by
    apply List.map_congr_left
    intro x _
    exact hundredths_of_cents _
  have htot : (0 : ℚ) ≤ (((pq.map (fun x => x.1 * x.2)).sum : ℕ) : ℚ) / 100 := by
    positivity
  refine ⟨hsub, hsum, fun x _ => hundredths_of_cents _, ?_, ?_, ?_⟩
  · rw [hh, hundredths_of_cents]
  · rw [updateOrderTotal_items]
    simp only [List.map_map, Function.comp_def]
    have hmap := congrArg (List.map (fun x : JSNumber => "$" ++ toFixed2 x)) hsub
    simp only [List.map_map, Function.comp_def] at hmap
    rw [hmap]
    apply List.map_congr_left
    intro x hx
    have hle : ((x.1 * x.2 : ℕ) : ℚ) / 100 ≤
        ((pq.map (fun x : ℕ × ℕ => x.1 * x.2)).map (fun m : ℕ => (m : ℚ) / 100)).sum := by
      apply List.single_le_sum
      · intro s hs
        obtain ⟨m, _, rfl⟩ := List.mem_map.mp hs
        positivity
      · exact List.mem_map.mpr ⟨x.1 * x.2, List.mem_map.mpr ⟨x, hx, rfl⟩, rfl⟩
    rw [sum_cents] at hle
    rw [toFixed2_of_nonneg _ (by positivity) (lt_of_le_of_lt hle hlt)]
  · have hts := updateOrderTotal_orderTotal exact page
    unfold orderSum at hsum
    rw [hts, hsum, toFixed2_of_nonneg _ htot hlt, hundredths_of_cents, hh]

/-- The rows `(10.00, 2)` and `(5.50, 3)`, prices of `1000` and `550`
hundredths: the rows show `$20.00` and `$16.50`, the total `$36.50`. -/
theorem exact_total_is_sum_of_shown_subtotals_witness :
    ([{ price := some "10.00", quantity := "2", subtotal := "" },
      { price := some "5.50", quantity := "3", subtotal := "" }] : List OrderItem).map
        (fun item => (itemPrice exact item, itemQuantity exact item)) =
      ([(1000, 2), (550, 3)] : List (ℕ × ℕ)).map
        (fun x => (JSNumber.fin ((x.1 : ℚ) / 100), JSNumber.fin (x.2 : ℚ))) ∧
    (((([(1000, 2), (550, 3)] : List (ℕ × ℕ)).map (fun x => x.1 * x.2)).sum : ℕ) : ℚ) / 100 <
      10 ^ 21 ∧
    (updateOrderTotal exact
        { items := [{ price := some "10.00", quantity := "2", subtotal := "" },
                    { price := some "5.50", quantity := "3", subtotal := "" }],
          orderTotal := "" }).items.map (fun item => item.subtotal) =
      ([(1000, 2), (550, 3)] : List (ℕ × ℕ)).map
        (fun x => "$" ++ fixedNotation (hundredths (((x.1 * x.2 : ℕ) : ℚ) / 100))) ∧
    (updateOrderTotal exact
        { items := [{ price := some "10.00", quantity := "2", subtotal := "" },
                    { price := some "5.50", quantity := "3", subtotal := "" }],
          orderTotal := "" }).orderTotal = "$" ++ fixedNotation
      (([(1000, 2), (550, 3)] : List (ℕ × ℕ)).map
        (fun x => hundredths (((x.1 * x.2 : ℕ) : ℚ) / 100))).sum ∧
    updateOrderTotal exact
        { items := [{ price := some "10.00", quantity := "2", subtotal := "" },
                    { price := some "5.50", quantity := "3", subtotal := "" }],
          orderTotal := "" } =
      { items := [{ price := some "10.00", quantity := "2", subtotal := "$20.00" },
                  { price := some "5.50", quantity := "3", subtotal := "$16.50" }],
        orderTotal := "$36.50" } :=
  ⟨by decide!, by decide!,
    (exact_total_is_sum_of_shown_subtotals
      { items := [{ price := some "10.00", quantity := "2", subtotal := "" },
                  { price := some "5.50", quantity := "3", subtotal := "" }],
        orderTotal := "" }
      [(1000, 2), (550, 3)] (by decide!) (by decide!)).2.2.2.2.1,
    (exact_total_is_sum_of_shown_subtotals
      { items := [{ price := some "10.00", quantity := "2", subtotal := "" },
                  { price := some "5.50", quantity := "3", subtotal := "" }],
        orderTotal := "" }
      [(1000, 2), (550, 3)] (by decide!) (by decide!)).2.2.2.2.2,
    by decide!⟩

/-- Claim C10 fails as stated. Two rows of price `600000000000000000000.01` and
quantity `1`, in exact arithmetic: the price is a whole number of hundredths,
each row shows `$600000000000000000000.01`, and the total, which is not below
`10 ^ 21`, shows `$1.2e+21`, not the `1200000000000000000000.02` the rows add up
to. -/
theorem exact_total_counterexample :
    itemPrice exact
        { price := some "600000000000000000000.01", quantity := "1", subtotal := "" } =
      JSNumber.fin (((60000000000000000000001 : ℕ) : ℚ) / 100) ∧
    itemQuantity exact
        { price := some "600000000000000000000.01", quantity := "1", subtotal := "" } =
      JSNumber.fin ((1 : ℕ) : ℚ) ∧
    updateOrderTotal exact
        { items := [{ price := some "600000000000000000000.01", quantity := "1",
                      subtotal := "" },
                    { price := some "600000000000000000000.01", quantity := "1",
                      subtotal := "" }],
          orderTotal := "" } =
      { items := [{ price := some "600000000000000000000.01", quantity := "1",
                    subtotal := "$600000000000000000000.01" },
                  { price := some "600000000000000000000.01", quantity := "1",
                    subtotal := "$600000000000000000000.01" }],
        orderTotal := "$1.2e+21" } ∧
    "$" ++ fixedNotation (60000000000000000000001 + 60000000000000000000001) =
      "$1200000000000000000000.02" := by
  decide!

/-! ## The filters -/

/-- What the table handler does to one card. -/
theorem tableCardStep_spec (selection : String) (table : TableCard) :
    (tableCardStep selection table).status = table.status ∧
    ((tableCardStep selection table).display = "block" ↔
      (selection = "all" ∨ table.status = some selection)) ∧
    ((tableCardStep selection table).display = "none" ↔
      ¬ (selection = "all" ∨ table.status = some selection)) := by
  unfold tableCardStep
  split <;> rename_i h
  · refine ⟨rfl, ⟨fun _ => h, fun _ => rfl⟩, ⟨fun hd => ?_, fun hn => absurd h hn⟩⟩
    exact absurd hd (show ("block" : String) ≠ "none" by decide)
  · refine ⟨rfl, ⟨fun hd => ?_, fun hp => absurd hp h⟩, ⟨fun _ => h, fun _ => rfl⟩⟩
    exact absurd hd (show ("none" : String) ≠ "block" by decide)

/-- After a throw the handler does nothing more. -/
theorem foldl_menuItemStep_of_typeError (category : String) (items : List MenuItemCard)
    (st : MenuState) (h : st.typeError = true) :
    items.foldl (menuItemStep category) st = st := by
  induction items with
  | nil => rfl
  | cons item items ih =>
    have hstep : menuItemStep category st item = st := by simp [menuItemStep, h]
    rw [List.foldl_cons, hstep, ih]

/-- A card with a column: one assignment to that column, no throw. -/
theorem menuItemStep_of_column (category : String) (st : MenuState) (item : MenuItemCard)
    (c : ℕ) (hst : st.typeError = false) (hc : item.column = some c) :
    menuItemStep category st item =
      { columnDisplay := Function.update st.columnDisplay c
          (if category = "all" ∨ item.category = some category then "block" else "none"),
        typeError := false } := by
  unfold menuItemStep
  by_cases h : category = "all" ∨ item.category = some category
  · simp [hst, hc, h]
  · simp [hst, hc, h]

/-- A card without column: the assignment throws. -/
theorem menuItemStep_of_null (category : String) (st : MenuState) (item : MenuItemCard)
    (hst : st.typeError = false) (hc : item.column = none) :
    menuItemStep category st item = { st with typeError := true } := by
  unfold menuItemStep
  by_cases h : category = "all" ∨ item.category = some category
  · simp [hst, hc, h]
  · simp [hst, hc, h]

/-- The handler throws exactly when some card has no column. -/
theorem foldl_menuItemStep_typeError (category : String) (items : List MenuItemCard)
    (st : MenuState) (hst : st.typeError = false) :
    (items.foldl (menuItemStep category) st).typeError = true ↔
      ∃ item ∈ items, item.column = none := by
  induction items generalizing st with
  | nil => simp [hst]
  | cons item items ih =>
    rw [List.foldl_cons]
    cases hc : item.column with
    | none =>
      rw [menuItemStep_of_null category st item hst hc,
        foldl_menuItemStep_of_typeError category items _ rfl]
      simp [hc]
    | some c =>
      rw [menuItemStep_of_column category st item c hst hc, ih _ rfl]
      constructor
      · rintro ⟨x, hx, hxn⟩
        exact ⟨x, List.mem_cons_of_mem _ hx, hxn⟩
      · rintro ⟨x, hx, hxn⟩
        rcases List.mem_cons.mp hx with rfl | hx
        · rw [hc] at hxn
          cases hxn
        · exact ⟨x, hx, hxn⟩

/-- A column none of the cards lies in keeps its display. -/
theorem foldl_menuItemStep_other (category : String) (items : List MenuItemCard)
    (st : MenuState) (c : ℕ) (hc : ∀ item ∈ items, item.column ≠ some c) :
    (items.foldl (menuItemStep category) st).columnDisplay c = st.columnDisplay c := by
  induction items generalizing st with
  | nil => rfl
  | cons item items ih =>
    rw [List.foldl_cons, ih _ (fun x hx => hc x (List.mem_cons_of_mem _ hx))]
    cases hst : st.typeError with
    | true => simp [menuItemStep, hst]
    | false =>
      cases hcol : item.column with
      | none => rw [menuItemStep_of_null category st item hst hcol]
      | some d =>
        rw [menuItemStep_of_column category st item d hst hcol]
        have hne : c ≠ d := by
          intro h
          exact hc item (List.mem_cons_self _ _) (by rw [hcol, h])
        simp [Function.update_noteq hne]

/-- A hidden column stays hidden while no card in it matches. -/
theorem foldl_menuItemStep_hidden (category : String) (items : List MenuItemCard)
    (st : MenuState) (c : ℕ) (hnone : st.columnDisplay c = "none")
    (hc : ∀ item ∈ items, item.column = some c →
      ¬ (category = "all" ∨ item.category = some category)) :
    (items.foldl (menuItemStep category) st).columnDisplay c = "none" := by
  induction items generalizing st with
  | nil => exact hnone
  | cons item items ih =>
    rw [List.foldl_cons]
    apply ih _ _ (fun x hx => hc x (List.mem_cons_of_mem _ hx))
    cases hst : st.typeError with
    | true => simpa [menuItemStep, hst] using hnone
    | false =>
      cases hcol : item.column with
      | none =>
        rw [menuItemStep_of_null category st item hst hcol]
        exact hnone
      | some d =>
        rw [menuItemStep_of_column category st item d hst hcol]
        by_cases hcd : c = d
        · subst hcd
          have := hc item (List.mem_cons_self _ _) hcol
          simp [this]
        · simp [Function.update_noteq hcd, hnone]

/-- The state after the cards `pre` and then `item`, when these have columns:
no throw, and the column of `item` shows what `item` decides. -/
theorem menuFilterChange_append_card (category : String) (pre : List MenuItemCard)
    (item : MenuItemCard) (c : ℕ) (columnDisplay : ℕ → String)
    (hpre : ∀ x ∈ pre, x.column ≠ none) (hc : item.column = some c) :
    (menuFilterChange category (pre ++ [item]) columnDisplay).typeError = false ∧
    (menuFilterChange category (pre ++ [item]) columnDisplay).columnDisplay c =
      (if category = "all" ∨ item.category = some category then "block" else "none") := by
  have hno : (pre.foldl (menuItemStep category)
      { columnDisplay := columnDisplay, typeError := false }).typeError = false := by
    cases h : (pre.foldl (menuItemStep category)
      { columnDisplay := columnDisplay, typeError := false }).typeError with
    | false => rfl
    | true =>
      obtain ⟨x, hx, hxn⟩ := (foldl_menuItemStep_typeError category pre _ rfl).mp h
      exact absurd hxn (hpre x hx)
  unfold menuFilterChange
  rw [List.foldl_append, List.foldl_cons, List.foldl_nil,
    menuItemStep_of_column category _ item c hno hc]
  simp

/-- The column of a card shows what that card decides when the cards before it
have columns and no card after it lies in the same column. -/
theorem menuFilterChange_of_last (category : String) (pre post : List MenuItemCard)
    (item : MenuItemCard) (c : ℕ) (columnDisplay : ℕ → String)
    (hpre : ∀ x ∈ pre, x.column ≠ none) (hc : item.column = some c)
    (hpost : ∀ x ∈ post, x.column ≠ some c) :
    (menuFilterChange category (pre ++ item :: post) columnDisplay).columnDisplay c =
      (if category = "all" ∨ item.category = some category then "block" else "none") := by
  have h := menuFilterChange_append_card category pre item c columnDisplay hpre hc
  unfold menuFilterChange at h ⊢
  rw [show pre ++ item :: post = (pre ++ [item]) ++ post by simp, List.foldl_append,
    foldl_menuItemStep_other category post _ c hpost]
  exact h.2

/-- The column of a card that does not match ends hidden when the cards before
it have columns and no card after it in the same column matches. -/
theorem menuFilterChange_of_unmatched (category : String) (pre post : List MenuItemCard)
    (item : MenuItemCard) (c : ℕ) (columnDisplay : ℕ → String)
    (hpre : ∀ x ∈ pre, x.column ≠ none) (hc : item.column = some c)
    (hitem : ¬ (category = "all" ∨ item.category = some category))
    (hpost : ∀ x ∈ post, x.column = some c →
      ¬ (category = "all" ∨ x.category = some category)) :
    (menuFilterChange category (pre ++ item :: post) columnDisplay).columnDisplay c =
      "none" := by
  have h := menuFilterChange_append_card category pre item c columnDisplay hpre hc
  unfold menuFilterChange at h ⊢
  rw [show pre ++ item :: post = (pre ++ [item]) ++ post by simp, List.foldl_append]
  apply foldl_menuItemStep_hidden category post _ c _ hpost
  rw [h.2, if_neg hitem]

/-- Claim C2, as the script behaves. The table handler displays a card `block`
exactly when the selection is `all` or the card's tag is the selection, and
`none` exactly when not, and leaves every tag as it is.  The menu handler writes
to the `.col-md-4` column around a card: when every card has such a column and
no two cards have the same one, nothing is thrown and the column of a card is
displayed `block` exactly when the selection is `all` or the card's tag is the
selection, `none` exactly when not.  Tags `available`, `occupied`, `reserved`
under `occupied` leave only the second visible; under `all` all are visible,
also a card with an empty tag or with none; `Occupied` does not match
`occupied`. -/
theorem filter_visible_iff (selection : String) (tables : List TableCard)
    (menuItems : List MenuItemCard) (columnDisplay : ℕ → String)
    (hcol : ∀ item ∈ menuItems, item.column ≠ none)
    (hown : (menuItems.map (fun item => item.column)).Nodup) :
    List.Forall₂ (fun before after : TableCard =>
        after.status = before.status ∧
        (after.display = "block" ↔ (selection = "all" ∨ before.status = some selection)) ∧
        (after.display = "none" ↔ ¬ (selection = "all" ∨ before.status = some selection)))
      tables (tableFilterChange selection tables) ∧
    (menuFilterChange selection menuItems columnDisplay).typeError = false ∧
    (∀ item ∈ menuItems, ∀ c : ℕ, item.column = some c →
      ((menuFilterChange selection menuItems columnDisplay).columnDisplay c = "block" ↔
        (selection = "all" ∨ item.category = some selection)) ∧
      ((menuFilterChange selection menuItems columnDisplay).columnDisplay c = "none" ↔
        ¬ (selection = "all" ∨ item.category = some selection))) ∧
    (∀ c : ℕ, (∀ item ∈ menuItems, item.column ≠ some c) →
      (menuFilterChange selection menuItems columnDisplay).columnDisplay c =
        columnDisplay c) ∧
    tableFilterChange "occupied"
        [{ status := some "available", display := "block" },
         { status := some "occupied", display := "none" },
         { status := some "reserved", display := "" }] =
      [{ status := some "available", display := "none" },
       { status := some "occupied", display := "block" },
       { status := some "reserved", display := "none" }] ∧
    tableFilterChange "all"
        [{ status := some "available", display := "none" },
         { status := some "", display := "none" },
         { status := none, display := "none" }] =
      [{ status := some "available", display := "block" },
       { status := some "", display := "block" },
       { status := none, display := "block" }] ∧
    tableFilterChange "Occupied" [{ status := some "occupied", display := "block" }] =
      [{ status := some "occupied", display := "none" }] ∧
    (menuFilterChange "all"
        [{ category := some "available", column := some 0 },
         { category := some "", column := some 1 },
         { category := none, column := some 2 }]
        (fun _ => "none")).columnDisplay 0 = "block" ∧
    (menuFilterChange "all"
        [{ category := some "available", column := some 0 },
         { category := some "", column := some 1 },
         { category := none, column := some 2 }]
        (fun _ => "none")).columnDisplay 1 = "block" ∧
    (menuFilterChange "all"
        [{ category := some "available", column := some 0 },
         { category := some "", column := some 1 },
         { category := none, column := some 2 }]
        (fun _ => "none")).columnDisplay 2 = "block" := by
  refine ⟨?_, ?_, ?_, ?_, by decide, by decide, by decide, by decide, by decide, by decide⟩
  · unfold tableFilterChange
    rw [List.forall₂_map_right_iff, List.forall₂_same]
    intro table _
    exact tableCardStep_spec selection table
  · cases h : (menuFilterChange selection menuItems columnDisplay).typeError with
    | false => rfl
    | true =>
      obtain ⟨x, hx, hxn⟩ := (foldl_menuItemStep_typeError selection menuItems _ rfl).mp h
      exact absurd hxn (hcol x hx)
  · intro item hitem c hc
    obtain ⟨pre, post, rfl⟩ := List.append_of_mem hitem
    have hpre : ∀ x ∈ pre, x.column ≠ none :=
      fun x hx => hcol x (List.mem_append_left _ hx)
    have hpost : ∀ x ∈ post, x.column ≠ some c := by
      intro x hx hxc
      rw [List.map_append, List.map_cons, List.nodup_append] at hown
      have hnd := hown.2.1
      rw [List.nodup_cons] at hnd
      apply hnd.1
      rw [hc, ← hxc]
      exact List.mem_map_of_mem _ hx
    rw [menuFilterChange_of_last selection pre post item c columnDisplay hpre hc hpost]
    by_cases hsel : selection = "all" ∨ item.category = some selection
    · rw [if_pos hsel]
      exact ⟨⟨fun _ => hsel, fun _ => rfl⟩,
        ⟨fun hd => absurd hd (show ("block" : String) ≠ "none" by decide),
          fun hn => absurd hsel hn⟩⟩
    · rw [if_neg hsel]
      exact ⟨⟨fun hd => absurd hd (show ("none" : String) ≠ "block" by decide),
          fun hp => absurd hp hsel⟩,
        ⟨fun _ => hsel, fun _ => rfl⟩⟩
  · intro c hc
    exact foldl_menuItemStep_other selection menuItems _ c hc

/-- The menu cards tagged `available`, `occupied`, `reserved` in the columns
`0`, `1`, `2`, under the selection `occupied`: only column `1` is displayed. -/
theorem filter_visible_iff_witness :
    (∀ item ∈ ([{ category := some "available", column := some 0 },
        { category := some "occupied", column := some 1 },
        { category := some "reserved", column := some 2 }] : List MenuItemCard),
      item.column ≠ none) ∧
    (([{ category := some "available", column := some 0 },
        { category := some "occupied", column := some 1 },
        { category := some "reserved", column := some 2 }] : List MenuItemCard).map
      (fun item => item.column)).Nodup ∧
    (menuFilterChange "occupied"
        [{ category := some "available", column := some 0 },
         { category := some "occupied", column := some 1 },
         { category := some "reserved", column := some 2 }]
        (fun _ => "block")).typeError = false ∧
    (∀ item ∈ ([{ category := some "available", column := some 0 },
        { category := some "occupied", column := some 1 },
        { category := some "reserved", column := some 2 }] : List MenuItemCard),
      ∀ c : ℕ, item.column = some c →
      ((menuFilterChange "occupied"
          [{ category := some "available", column := some 0 },
           { category := some "occupied", column := some 1 },
           { category := some "reserved", column := some 2 }]
          (fun _ => "block")).columnDisplay c = "block" ↔
        ("occupied" = "all" ∨ item.category = some "occupied")) ∧
      ((menuFilterChange "occupied"
          [{ category := some "available", column := some 0 },
           { category := some "occupied", column := some 1 },
           { category := some "reserved", column := some 2 }]
          (fun _ => "block")).columnDisplay c = "none" ↔
        ¬ ("occupied" = "all" ∨ item.category = some "occupied"))) ∧
    (menuFilterChange "occupied"
        [{ category := some "available", column := some 0 },
         { category := some "occupied", column := some 1 },
         { category := some "reserved", column := some 2 }]
        (fun _ => "block")).columnDisplay 0 = "none" ∧
    (menuFilterChange "occupied"
        [{ category := some "available", column := some 0 },
         { category := some "occupied", column := some 1 },
         { category := some "reserved", column := some 2 }]
        (fun _ => "block")).columnDisplay 1 = "block" ∧
    (menuFilterChange "occupied"
        [{ category := some "available", column := some 0 },
         { category := some "occupied", column := some 1 },
         { category := some "reserved", column := some 2 }]
        (fun _ => "block")).columnDisplay 2 = "none" :=
  ⟨by decide, by decide,
    (filter_visible_iff "occupied" []
      [{ category := some "available", column := some 0 },
       { category := some "occupied", column := some 1 },
       { category := some "reserved", column := some 2 }]
      (fun _ => "block") (by decide) (by decide)).2.1,
    (filter_visible_iff "occupied" []
      [{ category := some "available", column := some 0 },
       { category := some "occupied", column := some 1 },
       { category := some "reserved", column := some 2 }]
      (fun _ => "block") (by decide) (by decide)).2.2.1,
    by decide, by decide, by decide⟩

/-- Claim C2 fails as stated. Two menu cards tagged `a` and `b` inside one
`.col-md-4` column, selection `a`: the first card sets the column to `block`,
the second sets it to `none`, so the card whose tag is the selection ends
hidden.  With a card that has no `.col-md-4` ancestor the handler throws, also
under `all`, and the column of the card after it is not made visible. -/
theorem filter_visible_counterexample :
    (menuFilterChange "a"
        [{ category := some "a", column := some 0 },
         { category := some "b", column := some 0 }]
        (fun _ => "block")).columnDisplay 0 = "none" ∧
    (menuFilterChange "a"
        [{ category := some "a", column := some 0 },
         { category := some "b", column := some 0 }]
        (fun _ => "block")).typeError = false ∧
    (menuFilterChange "all"
        [{ category := some "a", column := none },
         { category := some "b", column := some 1 }]
        (fun _ => "none")).typeError = true ∧
    (menuFilterChange "all"
        [{ category := some "a", column := none },
         { category := some "b", column := some 1 }]
        (fun _ => "none")).columnDisplay 1 = "none" := by
  decide

/-- Claim C7, as the script behaves. Under a selection other than `all` the
table handler hides every card whose tag is not the selection, a card without
tag attribute included, and all cards when none carries the selection; it has
no step that can throw.  The menu handler throws exactly when some card has no
`.col-md-4` ancestor.  When every card has one, the column of a card whose tag
is not the selection ends hidden unless a later card in the same column carries
the selection, and when no card carries the selection every card's column ends
hidden. -/
theorem filter_hides_unmatched (selection : String) (hsel : selection ≠ "all")
    (tables : List TableCard) (menuItems : List MenuItemCard)
    (columnDisplay : ℕ → String) :
    (∀ (i : ℕ) (table : TableCard), tables[i]? = some table →
        table.status ≠ some selection →
        (tableFilterChange selection tables)[i]? = some { table with display := "none" }) ∧
    ((∀ table ∈ tables, table.status ≠ some selection) →
        tableFilterChange selection tables =
          tables.map (fun table => { table with display := "none" })) ∧
    ((menuFilterChange selection menuItems columnDisplay).typeError = true ↔
        ∃ item ∈ menuItems, item.column = none) ∧
    ((∀ item ∈ menuItems, item.column ≠ none) →
      (∀ (pre post : List MenuItemCard) (item : MenuItemCard) (c : ℕ),
        menuItems = pre ++ item :: post → item.column = some c →
        item.category ≠ some selection →
        (∀ later ∈ post, later.column = some c → later.category ≠ some selection) →
        (menuFilterChange selection menuItems columnDisplay).columnDisplay c = "none") ∧
      ((∀ item ∈ menuItems, item.category ≠ some selection) →
        ∀ item ∈ menuItems, ∀ c : ℕ, item.column = some c →
          (menuFilterChange selection menuItems columnDisplay).columnDisplay c =
            "none")) := by
  have htable : ∀ table : TableCard, table.status ≠ some selection →
      tableCardStep selection table = { table with display := "none" } := by
    intro table h
    simp [tableCardStep, hsel, h]
  have hcond : ∀ item : MenuItemCard, item.category ≠ some selection →
      ¬ (selection = "all" ∨ item.category = some selection) := by
    intro item h hor
    rcases hor with h1 | h1
    · exact hsel h1
    · exact h h1
  have hcard : (∀ item ∈ menuItems, item.column ≠ none) →
      ∀ (pre post : List MenuItemCard) (item : MenuItemCard) (c : ℕ),
        menuItems = pre ++ item :: post → item.column = some c →
        item.category ≠ some selection →
        (∀ later ∈ post, later.column = some c → later.category ≠ some selection) →
        (menuFilterChange selection menuItems columnDisplay).columnDisplay c = "none" := by
    intro hcol pre post item c hsplit hc hitem hpost
    subst hsplit
    exact menuFilterChange_of_unmatched selection pre post item c columnDisplay
      (fun x hx => hcol x (List.mem_append_left _ hx)) hc (hcond item hitem)
      (fun x hx hxc => hcond x (hpost x hx hxc))
  refine ⟨?_, ?_, ?_, ?_⟩
  · intro i table hi h
    rw [tableFilterChange, List.getElem?_map, hi, Option.map_some', htable table h]
  · intro h
    exact List.map_congr_left (fun table ht => htable table (h table ht))
  · exact foldl_menuItemStep_typeError selection menuItems _ rfl
  · intro hcol
    refine ⟨hcard hcol, ?_⟩
    intro hnone item hitem c hc
    obtain ⟨pre, post, hsplit⟩ := List.append_of_mem hitem
    exact hcard hcol pre post item c hsplit hc (hnone item hitem)
      (fun later hl _ => hnone later (by
        rw [hsplit]
        exact List.mem_append_right _ (List.mem_cons_of_mem _ hl)))

/-- The selection `vip` on table cards tagged `available`, `occupied` and
untagged, and on menu cards tagged `available` and untagged in the columns `0`
and `1`: every card ends hidden and nothing is thrown. -/
theorem filter_hides_unmatched_witness :
    "vip" ≠ "all" ∧
    tableFilterChange "vip"
        [{ status := some "available", display := "block" },
         { status := some "occupied", display := "block" },
         { status := none, display := "block" }] =
      [{ status := some "available", display := "none" },
       { status := some "occupied", display := "none" },
       { status := none, display := "none" }] ∧
    ((menuFilterChange "vip"
        [{ category := some "available", column := some 0 },
         { category := none, column := some 1 }]
        (fun _ => "block")).typeError = true ↔
      ∃ item ∈ ([{ category := some "available", column := some 0 },
          { category := none, column := some 1 }] : List MenuItemCard),
        item.column = none) ∧
    (menuFilterChange "vip"
        [{ category := some "available", column := some 0 },
         { category := none, column := some 1 }]
        (fun _ => "block")).typeError = false ∧
    (∀ item ∈ ([{ category := some "available", column := some 0 },
        { category := none, column := some 1 }] : List MenuItemCard),
      ∀ c : ℕ, item.column = some c →
        (menuFilterChange "vip"
          [{ category := some "available", column := some 0 },
           { category := none, column := some 1 }]
          (fun _ => "block")).columnDisplay c = "none") :=
  ⟨by decide,
    (filter_hides_unmatched "vip" (by decide)
      [{ status := some "available", display := "block" },
       { status := some "occupied", display := "block" },
       { status := none, display := "block" }]
      [{ category := some "available", column := some 0 },
       { category := none, column := some 1 }]
      (fun _ => "block")).2.1 (by decide),
    (filter_hides_unmatched "vip" (by decide)
      [{ status := some "available", display := "block" },
       { status := some "occupied", display := "block" },
       { status := none, display := "block" }]
      [{ category := some "available", column := some 0 },
       { category := none, column := some 1 }]
      (fun _ => "block")).2.2.1,
    by decide,
    (filter_hides_unmatched "vip" (by decide)
      [{ status := some "available", display := "block" },
       { status := some "occupied", display := "block" },
       { status := none, display := "block" }]
      [{ category := some "available", column := some 0 },
       { category := none, column := some 1 }]
      (fun _ => "block")).2.2.2 (by decide) |>.2 (by decide)⟩

/-- Claim C7 fails as stated. Under the selection `b`, two menu cards tagged
`a` and `b` inside one `.col-md-4` column: the column ends `block`, so the card
whose tag is not the selection is not hidden.  A menu card tagged `a` without
`.col-md-4` ancestor: the handler throws, and the column of the card after it,
whose tag is not the selection either, stays displayed. -/
theorem filter_hides_unmatched_counterexample :
    "b" ≠ "all" ∧
    (menuFilterChange "b"
        [{ category := some "a", column := some 0 },
         { category := some "b", column := some 0 }]
        (fun _ => "block")).columnDisplay 0 = "block" ∧
    (menuFilterChange "b"
        [{ category := some "a", column := none },
         { category := some "c", column := some 1 }]
        (fun _ => "block")).typeError = true ∧
    (menuFilterChange "b"
        [{ category := some "a", column := none },
         { category := some "c", column := some 1 }]
        (fun _ => "block")).columnDisplay 1 = "block" := by
  decide

/-! ## The confirmation -/

/-- Claim C8. The click handler shows the dialog once, with the element's
`data-confirm` text, and calls `preventDefault` exactly when the answer is
`false`; on the answer `true` it does nothing more.  What was done before the
click stays in front of its effects. -/
theorem confirmClick_cancels_iff_declined (user : String → Bool) (dataConfirm : String)
    (log : List Effect) :
    confirmClick user dataConfirm log = log ++ confirmClick user dataConfirm [] ∧
    (Effect.preventDefault ∈ confirmClick user dataConfirm [] ↔ user dataConfirm = false) ∧
    (user dataConfirm = true →
      confirmClick user dataConfirm [] = [Effect.confirmShown dataConfirm]) ∧
    (user dataConfirm = false →
      confirmClick user dataConfirm [] =
        [Effect.confirmShown dataConfirm, Effect.preventDefault]) ∧
    (∀ message : String,
      (confirmClick user dataConfirm []).count (Effect.confirmShown message) =
        if message = dataConfirm then 1 else 0) := by
  cases h : user dataConfirm <;>
    simp [confirmClick, confirm, preventDefault, h, List.count_cons, List.count_nil]
  all_goals
    intro message
    simp only [eq_comm]

end RestaurantJS
